import Mathlib

/-!
# Verification of the pinecone-example indexing script

A shallow embedding of `src/index.ts`: a demonstration script that indexes a
static recipe corpus into a hosted vector database (Pinecone) and performs one
semantic-similarity query, delegating embedding generation (OpenAI) and
nearest-neighbour search to remote services.

The two remote services are modelled as oracles (`Oracles`): the embedding
call and the upsert may fail (a rejected promise in the script), and the
nearest-neighbour query is an uninterpreted function of the stored records.
The observable behaviour of the script is a trace of events (network calls and
console output) together with the remote state (which indexes exist, which
records have been upserted).  Numbers carried by vectors and scores are
modelled as rationals; the script never computes with them, it only passes
them through.
-/

namespace PineconeExample

/-- A document of the bundled corpus: `{ id, title, content }` (`recipes.json`). -/
structure Recipe where
  id : String
  title : String
  content : String
deriving Repr, DecidableEq

/-- The metadata stored with an upserted record: `{ title, content }`. -/
structure MatchMetadata where
  title : String
  content : String
deriving Repr, DecidableEq

/-- One record stored in the remote index: `{ id, values, metadata }`. -/
structure IndexRecord where
  id : String
  values : List ℚ
  metadata : MatchMetadata
deriving Repr, DecidableEq

/-- One match of a Pinecone query response.  The SDK's `metadata` field is
optional (`match.metadata?` in the script), so it is an `Option` here. -/
structure QueryMatch where
  id : String
  metadata : Option MatchMetadata
  score : ℚ
deriving Repr, DecidableEq

/-- A search result as built by `semanticSearch`. A `title` of `none` models
the JavaScript value `undefined` (the optional chain `match.metadata?.title`). -/
structure SearchResult where
  id : String
  title : Option String
  content : String
  score : ℚ
deriving Repr, DecidableEq

/-- `private readonly indexName = 'recipes'`. -/
def indexName : String := "recipes"

/-- `private readonly dimension = 1536` (OpenAI ada-002 embedding dimension). -/
def dimension : Nat := 1536

/-- `private readonly metric = 'cosine'`. -/
def metric : String := "cosine"

/-- The fixed example query of the top-level script. -/
def theQuery : String := "recipes with ice cream"

/-- The process environment, restricted to the two variables the script reads.
`none` models an unset variable; `some s` a variable set to the string `s`. -/
structure Env where
  PINECONE_API_KEY : Option String
  OPEN_AI_API_KEY : Option String
deriving Repr, DecidableEq

/-- JavaScript falsiness of a `string | undefined` value: `undefined` and the
empty string are falsy (`!PINECONE_API_KEY` in the script). -/
def jsFalsy : Option String → Bool
  | none => true
  | some s => s = ""

/-- The two startup guards of `src/index.ts` (lines 12-13): the Pinecone key is
checked first, then the OpenAI key; each missing key throws its own message. -/
def checkConfig (env : Env) : Except String Unit :=
  if jsFalsy env.PINECONE_API_KEY then Except.error "Pinecone API key is required"
  else if jsFalsy env.OPEN_AI_API_KEY then Except.error "OpenAI API key is required"
  else Except.ok ()

/-- Observable events of a run: remote calls and console output, in order. -/
inductive Event where
  | listIndexes : Event
  | createIndex (name : String) (dim : Nat) (metr : String) : Event
  | embed (text : String) : Event
  | upsert (id : String) : Event
  | queryCall (topK : Nat) : Event
  | logIndexing (title : String) : Event
  | printTable : Event
deriving Repr, DecidableEq

/-- The world the script interacts with: the remote service state plus the
trace of observable events so far. -/
structure World where
  /-- Names of the indexes existing at the Pinecone service. -/
  indexes : List String
  /-- Records committed to the remote index by successful upserts. -/
  committed : List IndexRecord
  /-- Observable events, oldest first. -/
  trace : List Event
deriving Repr, DecidableEq

/-- A fresh world with the given remote indexes, no records and no events. -/
def initialWorld (idxs : List String) : World :=
  { indexes := idxs, committed := [], trace := [] }

/-- The behaviour of the two remote services, left uninterpreted: the OpenAI
embeddings endpoint (`response.data`, a list of embedding vectors, or a
rejection), the Pinecone upsert outcome per record id, and the Pinecone
nearest-neighbour search over the stored records. -/
structure Oracles where
  /-- `openai.embeddings.create`: the `data` field of the response, or a
  rejected promise. -/
  embed : String → Except String (List (List ℚ))
  /-- Outcome of `index.upsert` for a record with the given id. -/
  upsertResult : String → Except String Unit
  /-- `index.query`: the `matches` of the response, a function of the stored
  records, the query vector and `topK`. -/
  query : List IndexRecord → List ℚ → Nat → List QueryMatch

/-- `pinecone.listIndexes()`: returns the index names and records the call. -/
def listIndexesOp (w : World) : List String × World :=
  (w.indexes, { w with trace := w.trace ++ [Event.listIndexes] })

/-- The `#indexExists` getter: lists the indexes and checks for `indexName`. -/
def indexExistsOp (w : World) : Bool × World :=
  let p := listIndexesOp w
  (p.1.contains indexName, p.2)

/-- `pinecone.createIndex({name, dimension, metric, spec})`: registers the
index at the service and records the call with its parameters. -/
def createIndexOp (w : World) : World :=
  { w with
    indexes := w.indexes ++ [indexName]
    trace := w.trace ++ [Event.createIndex indexName dimension metric] }

/-- `getIndex()`: if the index exists return a handle to it, otherwise create
it first.  The handle is modelled by the index name it refers to. -/
def getIndexOp (w : World) : String × World :=
  let p := indexExistsOp w
  if p.1 then (indexName, p.2)
  else (indexName, createIndexOp p.2)

/-- Replace-or-insert semantics of an upsert on the stored record list. -/
def upsertRecord (recs : List IndexRecord) (r : IndexRecord) : List IndexRecord :=
  if recs.any (fun x => x.id = r.id) then
    recs.map (fun x => if x.id = r.id then r else x)
  else
    recs ++ [r]

/-- `generateEmbedding(text)`: one remote call; returns
`response.data[0].embedding`.  When `data` is empty, `data[0]` is `undefined`
in JavaScript and reading `.embedding` from it throws. -/
def generateEmbeddingOp (o : Oracles) (text : String) (w : World) :
    Except String (List ℚ) × World :=
  let w1 : World := { w with trace := w.trace ++ [Event.embed text] }
  match o.embed text with
  | Except.error e => (Except.error e, w1)
  | Except.ok [] =>
      (Except.error "TypeError: cannot read properties of undefined", w1)
  | Except.ok (v :: _) => (Except.ok v, w1)

/-- `index.upsert([{id, values, metadata}])`: one remote call; on success the
record is committed (replacing any record with the same id), on failure the
remote state is unchanged and the error propagates. -/
def upsertOp (o : Oracles) (r : IndexRecord) (w : World) :
    Except String Unit × World :=
  let w1 : World := { w with trace := w.trace ++ [Event.upsert r.id] }
  match o.upsertResult r.id with
  | Except.error e => (Except.error e, w1)
  | Except.ok _ => (Except.ok (), { w1 with committed := upsertRecord w1.committed r })

/-- `indexDocument(document)`: get the index, embed the content, upsert the
record; the first rejected promise propagates. -/
def indexDocumentOp (o : Oracles) (doc : Recipe) (w : World) :
    Except String Unit × World :=
  let p := getIndexOp w
  match generateEmbeddingOp o doc.content p.2 with
  | (Except.error e, w2) => (Except.error e, w2)
  | (Except.ok emb, w2) =>
      upsertOp o { id := doc.id, values := emb
                   metadata := { title := doc.title, content := doc.content } } w2

/-- JavaScript `s.slice(0, 50)` on a string (the script truncates content to
its first 50 UTF-16 code units, modelled as characters). -/
def jsSlice50 (s : String) : String := String.mk (s.toList.take 50)

/-- The ellipsis the script appends to every truncated content. -/
def ellipsis : String := "…"

/-- `x + '…'` where `x : string | undefined`: JavaScript string concatenation
coerces `undefined` to the literal string `"undefined"`. -/
def jsConcatEllipsis : Option String → String
  | some s => s ++ ellipsis
  | none => "undefined" ++ ellipsis

/-- The per-match mapping of `semanticSearch`:
`{ id, title: match.metadata?.title,
   content: match.metadata?.content.toString().slice(0, 50) + '…',
   score: match.score }`.
The optional chain short-circuits to `undefined` when `metadata` is absent. -/
def toSearchResult (m : QueryMatch) : SearchResult :=
  { id := m.id
    title := m.metadata.map (fun md => md.title)
    content := jsConcatEllipsis (m.metadata.map (fun md => jsSlice50 md.content))
    score := m.score }

/-- `semanticSearch(query, topK)`: embed the query, get the index, query the
remote index, and map every match to a search result in order. -/
def semanticSearchOp (o : Oracles) (query : String) (topK : Nat) (w : World) :
    Except String (List SearchResult) × World :=
  match generateEmbeddingOp o query w with
  | (Except.error e, w1) => (Except.error e, w1)
  | (Except.ok vector, w1) =>
      let p := getIndexOp w1
      let w3 : World := { p.2 with trace := p.2.trace ++ [Event.queryCall topK] }
      (Except.ok ((o.query p.2.committed vector topK).map toSearchResult), w3)

/-- The `console.log(chalk.blue('Indexing recipe:'), recipe.title)` line that
precedes each `indexDocument` call in the top-level loop. -/
def logRecipe (w : World) (r : Recipe) : World :=
  { w with trace := w.trace ++ [Event.logIndexing r.title] }

/-- The top-level `for (const recipe of recipes)` loop: log, then index; the
first rejected promise aborts the loop and propagates. -/
def runLoop (o : Oracles) : List Recipe → World → Except String Unit × World
  | [], w => (Except.ok (), w)
  | r :: rs, w =>
      match indexDocumentOp o r (logRecipe w r) with
      | (Except.error e, w1) => (Except.error e, w1)
      | (Except.ok _, w1) => runLoop o rs w1

/-- The whole script: the two startup guards (before any network call), then
the indexing loop over the corpus, then the one semantic search, then
`console.table`. -/
def runScript (o : Oracles) (recipes : List Recipe) (env : Env) (w : World) :
    Except String (List SearchResult) × World :=
  match checkConfig env with
  | Except.error e => (Except.error e, w)
  | Except.ok _ =>
      match runLoop o recipes w with
      | (Except.error e, w1) => (Except.error e, w1)
      | (Except.ok _, w1) =>
          match semanticSearchOp o theQuery 3 w1 with
          | (Except.error e, w2) => (Except.error e, w2)
          | (Except.ok results, w2) =>
              (Except.ok results, { w2 with trace := w2.trace ++ [Event.printTable] })

/-- Modelled from the spec: the bundled corpus file `recipes.json` is imported
by the script but is not among the sources; the spec describes it as a static
list of recipe documents and its end-to-end scenario names three recipes
titled "Vanilla Ice Cream", "Tomato Soup" and "Grilled Cheese". -/
def specRecipes : List Recipe :=
  [ { id := "1", title := "Vanilla Ice Cream", content := "Vanilla Ice Cream" }
  , { id := "2", title := "Tomato Soup", content := "Tomato Soup" }
  , { id := "3", title := "Grilled Cheese", content := "Grilled Cheese" } ]

/-! ## Helper lemmas -/

lemma length_mk (l : List Char) : (String.mk l).length = l.length := rfl

lemma mk_toList (s : String) : String.mk s.toList = s := by cases s; rfl

lemma length_jsSlice50 (s : String) : (jsSlice50 s).length = min 50 s.length := by
  show (s.toList.take 50).length = min 50 s.length
  rw [List.length_take]
  rfl

lemma length_ellipsis : ellipsis.length = 1 := by decide

lemma jsSlice50_of_length_le (s : String) (h : s.length ≤ 50) : jsSlice50 s = s := by
  unfold jsSlice50
  rw [List.take_of_length_le, mk_toList]
  exact h

lemma toSearchResult_content (m : QueryMatch) :
    (toSearchResult m).content = jsConcatEllipsis (m.metadata.map (fun md => jsSlice50 md.content)) :=
  rfl

lemma toSearchResult_content_some (m : QueryMatch) (md : MatchMetadata)
    (h : m.metadata = some md) :
    (toSearchResult m).content = jsSlice50 md.content ++ ellipsis := by
  rw [toSearchResult_content, h]
  rfl

lemma toSearchResult_content_none (m : QueryMatch) (h : m.metadata = none) :
    (toSearchResult m).content = "undefined" ++ ellipsis := by
  rw [toSearchResult_content, h]
  rfl

lemma toSearchResult_content_length (m : QueryMatch) :
    (toSearchResult m).content.length ≤ 50 + ellipsis.length := by
  cases h : m.metadata with
  | none =>
      rw [toSearchResult_content_none m h, String.length_append, length_ellipsis]
      decide
  | some md =>
      rw [toSearchResult_content_some m md h, String.length_append, length_jsSlice50]
      have : min 50 md.content.length ≤ 50 := Nat.min_le_left _ _
      omega

lemma semanticSearchOp_ok {o : Oracles} {q : String} {k : Nat} {w : World}
    {results : List SearchResult}
    (h : (semanticSearchOp o q k w).1 = Except.ok results) :
    ∃ ms : List QueryMatch, results = ms.map toSearchResult := by
  unfold semanticSearchOp at h
  cases hg : generateEmbeddingOp o q w with
  | mk fst snd =>
    cases fst with
    | error e => rw [hg] at h; simp at h
    | ok v =>
        rw [hg] at h
        simp only at h
        exact ⟨_, (Except.ok.injEq _ _ ▸ h).symm⟩

lemma getIndexOp_committed (w : World) : (getIndexOp w).2.committed = w.committed := by
  unfold getIndexOp indexExistsOp listIndexesOp createIndexOp
  dsimp only
  split <;> rfl

lemma semanticSearchOp_of_embed_ok {o : Oracles} {q : String} (k : Nat) (w : World)
    {v : List ℚ} {rest : List (List ℚ)} (h : o.embed q = Except.ok (v :: rest)) :
    (semanticSearchOp o q k w).1 =
      Except.ok ((o.query w.committed v k).map toSearchResult) := by
  unfold semanticSearchOp generateEmbeddingOp
  rw [h]
  simp only
  rw [getIndexOp_committed]

/-! ## Concrete inputs used by the witnesses -/

/-- A successful oracle environment whose query response is a parameter. -/
def okOracles (ms : List QueryMatch) : Oracles :=
  { embed := fun _ => Except.ok [[1]]
    upsertResult := fun _ => Except.ok ()
    query := fun _ _ _ => ms }

/-- A 500-character stored content, for the truncation witness. -/
def c3md : MatchMetadata :=
  { title := "Recipe", content := String.mk (List.replicate 500 'a') }

def c3match : QueryMatch := { id := "r1", metadata := some c3md, score := 1 }

def c9match : QueryMatch :=
  { id := "r2", metadata := some { title := "T", content := "short" }, score := 1 }

def c10match : QueryMatch := { id := "r3", metadata := none, score := 1 }

/-! ## Claims -/

/-- C3: every search result returned by `semanticSearch` has a `content` field
of at most 50 characters plus the ellipsis marker, whatever the stored
content's length; a 500-character stored content yields exactly the first 50
characters followed by the ellipsis. -/
theorem c3_content_truncated :
    (∀ (o : Oracles) (q : String) (k : Nat) (w : World)
        (results : List SearchResult) (r : SearchResult),
        (semanticSearchOp o q k w).1 = Except.ok results → r ∈ results →
        r.content.length ≤ 50 + ellipsis.length) ∧
    (∀ (m : QueryMatch) (md : MatchMetadata), m.metadata = some md →
        md.content.length = 500 →
        (toSearchResult m).content = jsSlice50 md.content ++ ellipsis ∧
        (jsSlice50 md.content).length = 50 ∧
        (toSearchResult m).content.length = 50 + ellipsis.length) := by
  constructor
  · intro o q k w results r h hr
    obtain ⟨ms, rfl⟩ := semanticSearchOp_ok h
    obtain ⟨m, _, rfl⟩ := List.mem_map.mp hr
    exact toSearchResult_content_length m
  · intro m md h h500
    have hlen : (jsSlice50 md.content).length = 50 := by
      rw [length_jsSlice50, h500]
      decide
    refine ⟨toSearchResult_content_some m md h, hlen, ?_⟩
    rw [toSearchResult_content_some m md h, String.length_append, hlen]

/-- Witness for C3 at a concrete 500-character content. -/
theorem c3_content_truncated_witness :
    (toSearchResult c3match).content.length ≤ 50 + ellipsis.length ∧
    (toSearchResult c3match).content.length = 50 + ellipsis.length := by
  constructor
  · exact c3_content_truncated.1 (okOracles [c3match]) "q" 3 (initialWorld [indexName])
      [toSearchResult c3match] (toSearchResult c3match) rfl (List.mem_singleton.mpr rfl)
  · exact (c3_content_truncated.2 c3match c3md rfl
      (by show (List.replicate 500 'a').length = 500; rw [List.length_replicate])).2.2

/-- C9: `semanticSearch` appends the ellipsis unconditionally: the content
field is always the first 50 characters (the whole content, when shorter)
followed by the ellipsis, and is never the untouched original string. -/
theorem c9_ellipsis_unconditional :
    ∀ (m : QueryMatch) (md : MatchMetadata), m.metadata = some md →
      (toSearchResult m).content = jsSlice50 md.content ++ ellipsis ∧
      (md.content.length ≤ 50 →
        (toSearchResult m).content = md.content ++ ellipsis ∧
        (toSearchResult m).content ≠ md.content) := by
  intro m md h
  refine ⟨toSearchResult_content_some m md h, fun hle => ⟨?_, ?_⟩⟩
  · rw [toSearchResult_content_some m md h, jsSlice50_of_length_le md.content hle]
  · rw [toSearchResult_content_some m md h, jsSlice50_of_length_le md.content hle]
    intro heq
    have hlen := congrArg String.length heq
    rw [String.length_append, length_ellipsis] at hlen
    omega

/-- Witness for C9 at a concrete 5-character content. -/
theorem c9_ellipsis_unconditional_witness :
    (toSearchResult c9match).content = "short" ++ ellipsis ∧
    (toSearchResult c9match).content ≠ "short" := by
  exact (c9_ellipsis_unconditional c9match { title := "T", content := "short" } rfl).2
    (by decide)

/-- C10: a match without metadata does not make `semanticSearch` fail: the
search still returns the mapped matches, and such a match yields an undefined
(`none`) title and the content `"undefined"` followed by the ellipsis. -/
theorem c10_missing_metadata :
    (∀ (o : Oracles) (q : String) (k : Nat) (w : World)
        (v : List ℚ) (rest : List (List ℚ)),
        o.embed q = Except.ok (v :: rest) →
        (semanticSearchOp o q k w).1 =
          Except.ok ((o.query w.committed v k).map toSearchResult)) ∧
    (∀ m : QueryMatch, m.metadata = none →
        (toSearchResult m).title = none ∧
        (toSearchResult m).content = "undefined" ++ ellipsis) := by
  constructor
  · intro o q k w v rest h
    exact semanticSearchOp_of_embed_ok k w h
  · intro m h
    refine ⟨?_, toSearchResult_content_none m h⟩
    unfold toSearchResult
    rw [h]
    rfl

/-- Witness for C10 at a concrete metadata-free match. -/
theorem c10_missing_metadata_witness :
    (semanticSearchOp (okOracles [c10match]) "q" 3 (initialWorld [indexName])).1 =
      Except.ok [toSearchResult c10match] ∧
    (toSearchResult c10match).title = none ∧
    (toSearchResult c10match).content = "undefined" ++ ellipsis := by
  refine ⟨?_, c10_missing_metadata.2 c10match rfl⟩
  exact c10_missing_metadata.1 (okOracles [c10match]) "q" 3 (initialWorld [indexName])
    [1] [] rfl

lemma getIndexOp_absent {w : World} (h : w.indexes.contains indexName = false) :
    getIndexOp w = (indexName,
      { w with indexes := w.indexes ++ [indexName]
               trace := (w.trace ++ [Event.listIndexes]) ++
                 [Event.createIndex indexName dimension metric] }) := by
  unfold getIndexOp indexExistsOp listIndexesOp createIndexOp
  dsimp only
  rw [if_neg (by simpa using h)]

lemma getIndexOp_present {w : World} (h : w.indexes.contains indexName = true) :
    getIndexOp w = (indexName, { w with trace := w.trace ++ [Event.listIndexes] }) := by
  unfold getIndexOp indexExistsOp listIndexesOp
  dsimp only
  rw [if_pos h]

/-- The number of `createIndex` calls recorded in a trace. -/
def createCount (tr : List Event) : Nat :=
  tr.countP (fun e => match e with
    | Event.createIndex _ _ _ => true
    | _ => false)

lemma createCount_append (s t : List Event) :
    createCount (s ++ t) = createCount s + createCount t := by
  unfold createCount
  rw [List.countP_append]

/-- An environment where both variables are present but one is empty. -/
def c1env : Env := { PINECONE_API_KEY := some "", OPEN_AI_API_KEY := some "sk-test" }

/-- C1 counterexample: with both environment variables present (the Pinecone
key set to the empty string, the OpenAI key set to a token), the script still
raises the Pinecone configuration error, because the guard `!PINECONE_API_KEY`
tests JavaScript falsiness, not absence. -/
theorem c1_counterexample :
    c1env.PINECONE_API_KEY.isSome = true ∧
    c1env.OPEN_AI_API_KEY.isSome = true ∧
    (runScript (okOracles []) specRecipes c1env (initialWorld [])).1 =
      Except.error "Pinecone API key is required" := by
  exact ⟨rfl, rfl, rfl⟩

/-- C1 (amended): if either required secret is absent or empty (JavaScript
falsy), the script raises a descriptive error distinguishable for each key,
and does so before any network call (the world, hence the event trace, is left
untouched); if both are present and non-empty, the configuration check
succeeds. -/
theorem c1_config_guards (o : Oracles) (recipes : List Recipe) (env : Env)
    (idxs : List String) :
    (jsFalsy env.PINECONE_API_KEY = true →
        runScript o recipes env (initialWorld idxs) =
          (Except.error "Pinecone API key is required", initialWorld idxs)) ∧
    (jsFalsy env.PINECONE_API_KEY = false → jsFalsy env.OPEN_AI_API_KEY = true →
        runScript o recipes env (initialWorld idxs) =
          (Except.error "OpenAI API key is required", initialWorld idxs)) ∧
    ("Pinecone API key is required" ≠ "OpenAI API key is required") ∧
    (jsFalsy env.PINECONE_API_KEY = false → jsFalsy env.OPEN_AI_API_KEY = false →
        checkConfig env = Except.ok ()) := by
  refine ⟨?_, ?_, by decide, ?_⟩
  · intro h
    unfold runScript checkConfig
    rw [h]
    rfl
  · intro h1 h2
    unfold runScript checkConfig
    rw [h1, h2]
    rfl
  · intro h1 h2
    unfold checkConfig
    rw [h1, h2]
    rfl

/-- Witness for C1 (amended) at three concrete environments. -/
theorem c1_config_guards_witness :
    runScript (okOracles []) specRecipes
        { PINECONE_API_KEY := none, OPEN_AI_API_KEY := some "sk" } (initialWorld []) =
      (Except.error "Pinecone API key is required", initialWorld []) ∧
    runScript (okOracles []) specRecipes
        { PINECONE_API_KEY := some "pk", OPEN_AI_API_KEY := none } (initialWorld []) =
      (Except.error "OpenAI API key is required", initialWorld []) ∧
    checkConfig { PINECONE_API_KEY := some "pk", OPEN_AI_API_KEY := some "sk" } =
      Except.ok () := by
  refine ⟨?_, ?_, ?_⟩
  · exact (c1_config_guards (okOracles []) specRecipes
      { PINECONE_API_KEY := none, OPEN_AI_API_KEY := some "sk" } []).1 rfl
  · exact (c1_config_guards (okOracles []) specRecipes
      { PINECONE_API_KEY := some "pk", OPEN_AI_API_KEY := none } []).2.1 rfl rfl
  · exact (c1_config_guards (okOracles []) specRecipes
      { PINECONE_API_KEY := some "pk", OPEN_AI_API_KEY := some "sk" } []).2.2.2 rfl rfl

/-- C2: starting from a service state where the index is not listed, calling
`getIndex` twice performs exactly one `createIndex` call — the second call
finds the index already listed and creates nothing — and both calls return a
handle to the index with the configured name. -/
theorem c2_getIndex_idempotent (w : World) (h : w.indexes.contains indexName = false) :
    (getIndexOp w).1 = indexName ∧
    (getIndexOp (getIndexOp w).2).1 = indexName ∧
    createCount (getIndexOp w).2.trace = createCount w.trace + 1 ∧
    createCount (getIndexOp (getIndexOp w).2).2.trace =
      createCount (getIndexOp w).2.trace := by
  have habs := getIndexOp_absent h
  have hpres : ((getIndexOp w).2).indexes.contains indexName = true := by
    rw [habs]
    simp
  have hpr := getIndexOp_present hpres
  refine ⟨by rw [habs], by rw [hpr], ?_, ?_⟩
  · rw [habs]
    dsimp only
    rw [createCount_append, createCount_append]
    rfl
  · rw [hpr]
    dsimp only
    rw [createCount_append]
    rfl

/-- Witness for C2 at a fresh service state with no indexes. -/
theorem c2_getIndex_idempotent_witness :
    (initialWorld []).indexes.contains indexName = false ∧
    (getIndexOp (initialWorld [])).1 = indexName ∧
    createCount (getIndexOp (initialWorld [])).2.trace =
      createCount (initialWorld []).trace + 1 ∧
    createCount (getIndexOp (getIndexOp (initialWorld [])).2).2.trace =
      createCount (getIndexOp (initialWorld [])).2.trace := by
  have h := c2_getIndex_idempotent (initialWorld []) rfl
  exact ⟨rfl, h.1, h.2.2.1, h.2.2.2⟩

/-- C7: `generateEmbedding` returns the first embedding vector of the remote
response, and when the remote service honours its contract of returning
vectors of the fixed dimension, the returned vector has 1536 entries. -/
theorem c7_generateEmbedding (o : Oracles) (text : String) (w : World)
    (v : List ℚ) (rest : List (List ℚ))
    (hresp : o.embed text = Except.ok (v :: rest))
    (hdim : ∀ u ∈ v :: rest, u.length = dimension) :
    (generateEmbeddingOp o text w).1 = Except.ok v ∧ v.length = 1536 := by
  constructor
  · unfold generateEmbeddingOp
    rw [hresp]
  · rw [hdim v (List.mem_cons_self v rest)]
    rfl

/-- Witness for C7 at a concrete 1536-entry response. -/
theorem c7_generateEmbedding_witness :
    (generateEmbeddingOp
        { embed := fun _ => Except.ok [List.replicate 1536 (0 : ℚ)]
          upsertResult := fun _ => Except.ok ()
          query := fun _ _ _ => [] }
        "hello" (initialWorld [])).1 =
      Except.ok (List.replicate 1536 (0 : ℚ)) ∧
    (List.replicate 1536 (0 : ℚ)).length = 1536 := by
  refine c7_generateEmbedding _ "hello" (initialWorld [])
    (List.replicate 1536 (0 : ℚ)) [] rfl ?_
  intro u hu
  rw [List.mem_singleton] at hu
  rw [hu, List.length_replicate]
  rfl

/-- C8: `semanticSearch` maps the matches of the remote query response in
order, preserving each match's score; hence when the matches arrive in
non-increasing score order (the remote contract), every adjacent pair of
results satisfies `score[i+1] ≤ score[i]`. -/
theorem c8_results_ordered (o : Oracles) (q : String) (k : Nat) (w : World)
    (v : List ℚ) (rest : List (List ℚ))
    (hembed : o.embed q = Except.ok (v :: rest)) :
    (semanticSearchOp o q k w).1 =
      Except.ok ((o.query w.committed v k).map toSearchResult) ∧
    ((o.query w.committed v k).map toSearchResult).map SearchResult.score =
      (o.query w.committed v k).map QueryMatch.score ∧
    (List.Chain' (fun a b => b.score ≤ a.score) (o.query w.committed v k) →
      ∀ (i : Nat) (h : i + 1 < ((o.query w.committed v k).map toSearchResult).length),
        (((o.query w.committed v k).map toSearchResult).get ⟨i + 1, h⟩).score ≤
        (((o.query w.committed v k).map toSearchResult).get
            ⟨i, Nat.lt_of_succ_lt h⟩).score) := by
  refine ⟨semanticSearchOp_of_embed_ok k w hembed, ?_, ?_⟩
  · rw [List.map_map]
    rfl
  · intro hchain i h
    have h2 : List.Chain' (fun a b : SearchResult => b.score ≤ a.score)
        ((o.query w.committed v k).map toSearchResult) := by
      rw [List.chain'_map]
      exact hchain
    have h3 := List.chain'_iff_get.mp h2 i (by omega)
    exact h3

/-- Matches with descending scores for the C8 witness. -/
def c8matches : List QueryMatch :=
  [ { id := "a", metadata := none, score := 3 }
  , { id := "b", metadata := none, score := 2 }
  , { id := "c", metadata := none, score := 1 } ]

/-- Witness for C8 at a concrete three-match response with descending scores. -/
theorem c8_results_ordered_witness :
    (semanticSearchOp (okOracles c8matches) "q" 3 (initialWorld [indexName])).1 =
      Except.ok (c8matches.map toSearchResult) ∧
    ((c8matches.map toSearchResult).get ⟨1, by decide⟩).score ≤
      ((c8matches.map toSearchResult).get ⟨0, by decide⟩).score := by
  have h := c8_results_ordered (okOracles c8matches) "q" 3 (initialWorld [indexName])
    [1] [] rfl
  have hch : List.Chain' (fun a b : QueryMatch => b.score ≤ a.score) c8matches := by
    simp only [c8matches, List.chain'_cons, List.chain'_singleton, and_true]
    norm_num
  exact ⟨h.1, h.2.2 hch 0 (by decide)⟩

lemma generateEmbeddingOp_committed (o : Oracles) (t : String) (w : World) :
    (generateEmbeddingOp o t w).2.committed = w.committed := by
  unfold generateEmbeddingOp
  cases o.embed t with
  | error e => rfl
  | ok l => cases l <;> rfl

lemma upsertOp_error_committed {o : Oracles} {r : IndexRecord} {w : World}
    {e : String} {w' : World} (h : upsertOp o r w = (Except.error e, w')) :
    w'.committed = w.committed := by
  simp only [upsertOp] at h
  cases hres : o.upsertResult r.id with
  | error e2 =>
      rw [hres] at h
      injection h with h1 h2
      rw [← h2]
  | ok u =>
      rw [hres] at h
      simp at h

lemma indexDocumentOp_error_committed {o : Oracles} {d : Recipe} {w : World}
    {e : String} {w' : World} (h : indexDocumentOp o d w = (Except.error e, w')) :
    w'.committed = w.committed := by
  simp only [indexDocumentOp] at h
  cases hg : generateEmbeddingOp o d.content (getIndexOp w).2 with
  | mk fst snd =>
    have hsnd : snd.committed = w.committed := by
      have h1 : snd = (generateEmbeddingOp o d.content (getIndexOp w).2).2 := by
        rw [hg]
      rw [h1, generateEmbeddingOp_committed, getIndexOp_committed]
    rw [hg] at h
    cases fst with
    | error e2 =>
        injection h with h1 h2
        rw [← h2, hsnd]
    | ok emb =>
        rw [upsertOp_error_committed h, hsnd]

lemma runLoop_append_ok (o : Oracles) (bs as : List Recipe) :
    ∀ (w w1 : World), runLoop o as w = (Except.ok (), w1) →
      runLoop o (as ++ bs) w = runLoop o bs w1 := by
  induction as with
  | nil =>
      intro w w1 h
      unfold runLoop at h
      injection h with h1 h2
      rw [List.nil_append, h2]
  | cons r rs ih =>
      intro w w1 h
      have hl : runLoop o (r :: rs) w =
          (match indexDocumentOp o r (logRecipe w r) with
           | (Except.error e, w2) => (Except.error e, w2)
           | (Except.ok _, w2) => runLoop o rs w2) := rfl
      have hg : runLoop o ((r :: rs) ++ bs) w =
          (match indexDocumentOp o r (logRecipe w r) with
           | (Except.error e, w2) => (Except.error e, w2)
           | (Except.ok _, w2) => runLoop o (rs ++ bs) w2) := rfl
      rw [hl] at h
      rw [hg]
      cases hstep : indexDocumentOp o r (logRecipe w r) with
      | mk fst snd =>
          rw [hstep] at h
          cases fst with
          | error e2 => simp at h
          | ok u => exact ih snd w1 h

/-- C4: when the step right after the successfully indexed prefix `done`
fails, the whole script surfaces that error unchanged, the upserts committed
for the prefix remain in effect (the failing step commits nothing), and no
document of `rest` is attempted — the final world does not depend on `rest`. -/
theorem c4_failure_stops_loop (o : Oracles) (env : Env) (done rest : List Recipe)
    (d : Recipe) (w w1 w2 : World) (e : String)
    (hcfg : checkConfig env = Except.ok ())
    (hdone : runLoop o done w = (Except.ok (), w1))
    (hfail : indexDocumentOp o d (logRecipe w1 d) = (Except.error e, w2)) :
    runScript o (done ++ d :: rest) env w = (Except.error e, w2) ∧
    w2.committed = w1.committed := by
  have hstep : runLoop o (d :: rest) w1 = (Except.error e, w2) := by
    unfold runLoop
    rw [hfail]
  have hloop : runLoop o (done ++ d :: rest) w = (Except.error e, w2) := by
    rw [runLoop_append_ok o (d :: rest) done w w1 hdone, hstep]
  constructor
  · unfold runScript
    rw [hcfg]
    dsimp only
    rw [hloop]
  · exact (indexDocumentOp_error_committed hfail).trans rfl

/-- An oracle environment whose embedding call rejects on one fixed text. -/
def c4Oracles : Oracles :=
  { embed := fun t => if t = "boom" then Except.error "rate limit" else Except.ok [[1]]
    upsertResult := fun _ => Except.ok ()
    query := fun _ _ _ => [] }

def c4env : Env := { PINECONE_API_KEY := some "pk", OPEN_AI_API_KEY := some "sk" }

def c4doc1 : Recipe := { id := "1", title := "A", content := "alpha" }

def c4fail : Recipe := { id := "2", title := "B", content := "boom" }

def c4doc3 : Recipe := { id := "3", title := "C", content := "gamma" }

def c4w0 : World := initialWorld [indexName]

def c4w1 : World := (runLoop c4Oracles [c4doc1] c4w0).2

def c4w2 : World := (indexDocumentOp c4Oracles c4fail (logRecipe c4w1 c4fail)).2

/-- Witness for C4: document 2 of 3 fails to embed; the script stops there
with the remote error and document 1's upsert stays committed. -/
theorem c4_failure_stops_loop_witness :
    runScript c4Oracles [c4doc1, c4fail, c4doc3] c4env c4w0 =
      (Except.error "rate limit", c4w2) ∧
    c4w2.committed = c4w1.committed := by
  exact c4_failure_stops_loop c4Oracles c4env [c4doc1] [c4doc3] c4fail c4w0 c4w1 c4w2
    "rate limit" rfl rfl rfl

/-- Whether an event, if it is a `createIndex` call, carries the fixed
dimension 1536 and the metric "cosine". -/
def createParamsFixed (e : Event) : Bool :=
  match e with
  | Event.createIndex _ d m => d = 1536 && m = "cosine"
  | _ => true

/-- Every `createIndex` call recorded in the world's trace used the fixed
dimension and metric. -/
def GoodTrace (w : World) : Prop := ∀ e ∈ w.trace, createParamsFixed e = true

lemma goodTrace_extend {w : World} (hw : GoodTrace w) {l : List Event}
    (hl : ∀ e ∈ l, createParamsFixed e = true) {w' : World}
    (h : w'.trace = w.trace ++ l) : GoodTrace w' := by
  intro e he
  rw [h] at he
  rcases List.mem_append.mp he with h2 | h2
  exacts [hw e h2, hl e h2]

lemma getIndexOp_good {w : World} (hw : GoodTrace w) : GoodTrace (getIndexOp w).2 := by
  unfold getIndexOp indexExistsOp listIndexesOp createIndexOp
  dsimp only
  split
  · refine goodTrace_extend hw ?_ rfl
    intro e he
    rw [List.mem_singleton] at he
    rw [he]
    rfl
  · refine goodTrace_extend hw (l := [Event.listIndexes,
      Event.createIndex indexName dimension metric]) ?_ (by simp)
    intro e he
    rcases List.mem_cons.mp he with h | h
    · rw [h]; rfl
    · rw [List.mem_singleton] at h
      rw [h]
      rfl

lemma generateEmbeddingOp_good {o : Oracles} {t : String} {w : World}
    (hw : GoodTrace w) : GoodTrace (generateEmbeddingOp o t w).2 := by
  have hgood : GoodTrace { w with trace := w.trace ++ [Event.embed t] } := by
    refine goodTrace_extend hw ?_ rfl
    intro e he
    rw [List.mem_singleton] at he
    rw [he]
    rfl
  unfold generateEmbeddingOp
  cases o.embed t with
  | error e => exact hgood
  | ok l => cases l <;> exact hgood

lemma upsertOp_good {o : Oracles} {r : IndexRecord} {w : World}
    (hw : GoodTrace w) : GoodTrace (upsertOp o r w).2 := by
  have hgood : ∀ w' : World, w'.trace = w.trace ++ [Event.upsert r.id] →
      GoodTrace w' := by
    intro w' htr
    refine goodTrace_extend hw ?_ htr
    intro e he
    rw [List.mem_singleton] at he
    rw [he]
    rfl
  unfold upsertOp
  cases o.upsertResult r.id with
  | error e => exact hgood _ rfl
  | ok u => exact hgood _ rfl

lemma indexDocumentOp_good {o : Oracles} {d : Recipe} {w : World}
    (hw : GoodTrace w) : GoodTrace (indexDocumentOp o d w).2 := by
  unfold indexDocumentOp
  dsimp only
  have h1 : GoodTrace (getIndexOp w).2 := getIndexOp_good hw
  have h2 : GoodTrace (generateEmbeddingOp o d.content (getIndexOp w).2).2 :=
    generateEmbeddingOp_good h1
  cases hg : generateEmbeddingOp o d.content (getIndexOp w).2 with
  | mk fst snd =>
    have hsnd : GoodTrace snd := by rw [show snd = (generateEmbeddingOp o d.content (getIndexOp w).2).2 from by rw [hg]]; exact h2
    cases fst with
    | error e => exact hsnd
    | ok emb => exact upsertOp_good hsnd

lemma logRecipe_good {w : World} {r : Recipe} (hw : GoodTrace w) :
    GoodTrace (logRecipe w r) := by
  refine goodTrace_extend hw ?_ rfl
  intro e he
  rw [List.mem_singleton] at he
  rw [he]
  rfl

lemma runLoop_good {o : Oracles} (rs : List Recipe) :
    ∀ w : World, GoodTrace w → GoodTrace (runLoop o rs w).2 := by
  induction rs with
  | nil => intro w hw; exact hw
  | cons r rs ih =>
      intro w hw
      have hl : runLoop o (r :: rs) w =
          (match indexDocumentOp o r (logRecipe w r) with
           | (Except.error e, w2) => (Except.error e, w2)
           | (Except.ok _, w2) => runLoop o rs w2) := rfl
      rw [hl]
      have hstep : GoodTrace (indexDocumentOp o r (logRecipe w r)).2 :=
        indexDocumentOp_good (logRecipe_good hw)
      cases hg : indexDocumentOp o r (logRecipe w r) with
      | mk fst snd =>
        have hsnd : GoodTrace snd := by
          rw [show snd = (indexDocumentOp o r (logRecipe w r)).2 from by rw [hg]]
          exact hstep
        cases fst with
        | error e => exact hsnd
        | ok u => exact ih snd hsnd

lemma semanticSearchOp_good {o : Oracles} {q : String} {k : Nat} {w : World}
    (hw : GoodTrace w) : GoodTrace (semanticSearchOp o q k w).2 := by
  unfold semanticSearchOp
  have h1 : GoodTrace (generateEmbeddingOp o q w).2 := generateEmbeddingOp_good hw
  cases hg : generateEmbeddingOp o q w with
  | mk fst snd =>
    have hsnd : GoodTrace snd := by
      rw [show snd = (generateEmbeddingOp o q w).2 from by rw [hg]]
      exact h1
    cases fst with
    | error e => exact hsnd
    | ok v =>
        dsimp only
        refine goodTrace_extend (getIndexOp_good hsnd) ?_ rfl
        intro e he
        rw [List.mem_singleton] at he
        rw [he]
        rfl

lemma runScript_good {o : Oracles} {rs : List Recipe} {env : Env} {w : World}
    (hw : GoodTrace w) : GoodTrace (runScript o rs env w).2 := by
  unfold runScript
  cases checkConfig env with
  | error e => exact hw
  | ok u =>
      dsimp only
      have hloop : GoodTrace (runLoop o rs w).2 := runLoop_good rs w hw
      cases hl : runLoop o rs w with
      | mk fst1 w1 =>
        have hw1 : GoodTrace w1 := by
          rw [show w1 = (runLoop o rs w).2 from by rw [hl]]
          exact hloop
        cases fst1 with
        | error e => exact hw1
        | ok u1 =>
            dsimp only
            have hsearch : GoodTrace (semanticSearchOp o theQuery 3 w1).2 :=
              semanticSearchOp_good hw1
            cases hs : semanticSearchOp o theQuery 3 w1 with
            | mk fst2 w2 =>
              have hw2 : GoodTrace w2 := by
                rw [show w2 = (semanticSearchOp o theQuery 3 w1).2 from by rw [hs]]
                exact hsearch
              cases fst2 with
              | error e => exact hw2
              | ok results =>
                  refine goodTrace_extend hw2 ?_ rfl
                  intro e he
                  rw [List.mem_singleton] at he
                  rw [he]
                  rfl

/-- C6: the embedding dimensionality and the similarity metric are the fixed
constants 1536 and "cosine", and every `createIndex` call any run of the
script ever performs carries exactly these values: starting from a world
whose trace satisfies the invariant, the whole run preserves it. -/
theorem c6_fixed_constants (o : Oracles) (rs : List Recipe) (env : Env) (w : World)
    (hw : ∀ e ∈ w.trace, createParamsFixed e = true) :
    dimension = 1536 ∧ metric = "cosine" ∧
    ∀ e ∈ (runScript o rs env w).2.trace, createParamsFixed e = true :=
  ⟨rfl, rfl, runScript_good hw⟩

/-- Witness for C6 on a concrete run that does create the index. -/
theorem c6_fixed_constants_witness :
    dimension = 1536 ∧ metric = "cosine" ∧
    ∀ e ∈ (runScript (okOracles []) specRecipes c4env (initialWorld [])).2.trace,
      createParamsFixed e = true := by
  exact c6_fixed_constants (okOracles []) specRecipes c4env (initialWorld [])
    (by intro e he; simp [initialWorld] at he)

/-- The trace of one loop iteration as the code actually performs it when the
index already exists: progress log, ensure-index (`listIndexes`), embed,
upsert — `indexDocument` calls `getIndex()` every time. -/
def docTrace (r : Recipe) : List Event :=
  [Event.logIndexing r.title, Event.listIndexes, Event.embed r.content, Event.upsert r.id]

/-- The full event trace of a successful run of the script when the index
already exists at the start. -/
def actualTrace (rs : List Recipe) : List Event :=
  rs.flatMap docTrace ++
    [Event.embed theQuery, Event.listIndexes, Event.queryCall 3, Event.printTable]

/-- The control flow asserted by the spec, rendered as a trace (one
per-document block, no ensure-index inside it). -/
def claimedDocTrace (r : Recipe) : List Event :=
  [Event.logIndexing r.title, Event.embed r.content, Event.upsert r.id]

/-- The spec's claimed linear flow: the ensure-index step exactly once before
the document loop, then per document only embed and upsert, then the query
embed, the search, and the print — stated for a run where the index already
exists, so the single ensure-index step is one `listIndexes` call. -/
def claimedTrace (rs : List Recipe) : List Event :=
  [Event.listIndexes] ++ rs.flatMap claimedDocTrace ++
    [Event.embed theQuery, Event.queryCall 3, Event.printTable]

/-- The number of ensure-index (`listIndexes`) calls recorded in a trace. -/
def listCount (tr : List Event) : Nat :=
  tr.countP (fun e => match e with
    | Event.listIndexes => true
    | _ => false)

/-- C5 counterexample: on the spec's three-recipe corpus, with the index
already existing and every remote call succeeding, the run's trace is not the
claimed linear trace: the ensure-index step is performed four times (once
inside each of the three `indexDocument` calls and once inside
`semanticSearch`), not once before the loop. -/
theorem c5_counterexample :
    (runScript (okOracles []) specRecipes c4env (initialWorld [indexName])).2.trace ≠
      claimedTrace specRecipes ∧
    listCount (runScript (okOracles []) specRecipes c4env
        (initialWorld [indexName])).2.trace = 4 ∧
    listCount (claimedTrace specRecipes) = 1 := by
  refine ⟨by decide, by decide, by decide⟩

lemma indexDocumentOp_ok {o : Oracles} {r : Recipe} {v : List ℚ}
    {data : List (List ℚ)} (w : World)
    (hidx : w.indexes.contains indexName = true)
    (he : o.embed r.content = Except.ok (v :: data))
    (hu : o.upsertResult r.id = Except.ok ()) :
    indexDocumentOp o r w = (Except.ok (),
      { indexes := w.indexes
        committed := upsertRecord w.committed
          { id := r.id, values := v
            metadata := { title := r.title, content := r.content } }
        trace := ((w.trace ++ [Event.listIndexes]) ++ [Event.embed r.content]) ++
          [Event.upsert r.id] }) := by
  unfold indexDocumentOp
  dsimp only
  rw [getIndexOp_present hidx]
  dsimp only
  unfold generateEmbeddingOp
  rw [he]
  dsimp only
  unfold upsertOp
  rw [hu]

lemma runLoop_ok_trace {o : Oracles} (rs : List Recipe) :
    ∀ w : World, w.indexes.contains indexName = true →
      (∀ r ∈ rs, ∃ v data, o.embed r.content = Except.ok (v :: data)) →
      (∀ r ∈ rs, o.upsertResult r.id = Except.ok ()) →
      (runLoop o rs w).1 = Except.ok () ∧
      (runLoop o rs w).2.trace = w.trace ++ rs.flatMap docTrace ∧
      (runLoop o rs w).2.indexes = w.indexes := by
  induction rs with
  | nil =>
      intro w hidx _ _
      exact ⟨rfl, by simp [runLoop], rfl⟩
  | cons r rs ih =>
      intro w hidx hembed hup
      obtain ⟨v, data, he⟩ := hembed r (List.mem_cons_self r rs)
      have hu := hup r (List.mem_cons_self r rs)
      have hidx' : (logRecipe w r).indexes.contains indexName = true := hidx
      have hstep := indexDocumentOp_ok (logRecipe w r) hidx' he hu
      have hl : runLoop o (r :: rs) w =
          (match indexDocumentOp o r (logRecipe w r) with
           | (Except.error e, w2) => (Except.error e, w2)
           | (Except.ok _, w2) => runLoop o rs w2) := rfl
      rw [hl, hstep]
      dsimp only
      obtain ⟨ih1, ih2, ih3⟩ := ih
        { indexes := (logRecipe w r).indexes
          committed := upsertRecord (logRecipe w r).committed
            { id := r.id, values := v
              metadata := { title := r.title, content := r.content } }
          trace := (logRecipe w r).trace ++ [Event.listIndexes] ++
            [Event.embed r.content] ++ [Event.upsert r.id] }
        hidx
        (fun x hx => hembed x (List.mem_cons_of_mem r hx))
        (fun x hx => hup x (List.mem_cons_of_mem r hx))
      refine ⟨ih1, ?_, ih3⟩
      rw [ih2]
      simp [docTrace, logRecipe, List.append_assoc]

lemma semanticSearchOp_ok_trace {o : Oracles} {q : String} {k : Nat} {v : List ℚ}
    {data : List (List ℚ)} (w : World)
    (hidx : w.indexes.contains indexName = true)
    (he : o.embed q = Except.ok (v :: data)) :
    semanticSearchOp o q k w =
      (Except.ok ((o.query w.committed v k).map toSearchResult),
       { indexes := w.indexes
         committed := w.committed
         trace := ((w.trace ++ [Event.embed q]) ++ [Event.listIndexes]) ++
           [Event.queryCall k] }) := by
  unfold semanticSearchOp generateEmbeddingOp
  rw [he]
  dsimp only
  rw [getIndexOp_present
    (show ({ w with trace := w.trace ++ [Event.embed q] } : World).indexes.contains
        indexName = true from hidx)]

/-- C5 (amended): the control flow is strictly linear in the order load
config, indexing loop in corpus order, query embed, search, print — but the
ensure-index step is not performed once before the loop: `getIndex()` runs at
the start of every `indexDocument` call and again inside `semanticSearch`
between the query embed and the query, as the `actualTrace` records. -/
theorem c5_linear_flow (o : Oracles) (env : Env) (rs : List Recipe) (w : World)
    (hcfg : checkConfig env = Except.ok ())
    (hidx : w.indexes.contains indexName = true)
    (hembed : ∀ r ∈ rs, ∃ v data, o.embed r.content = Except.ok (v :: data))
    (hq : ∃ v data, o.embed theQuery = Except.ok (v :: data))
    (hup : ∀ r ∈ rs, o.upsertResult r.id = Except.ok ()) :
    (∃ results, (runScript o rs env w).1 = Except.ok results) ∧
    (runScript o rs env w).2.trace = w.trace ++ actualTrace rs := by
  obtain ⟨qv, qdata, hqe⟩ := hq
  obtain ⟨hok, htr, hix⟩ := runLoop_ok_trace rs w hidx hembed hup
  unfold runScript
  rw [hcfg]
  dsimp only
  cases hl : runLoop o rs w with
  | mk fst w1 =>
    rw [hl] at hok htr hix
    dsimp only at hok htr hix
    cases fst with
    | error e => simp at hok
    | ok u =>
        dsimp only
        have hidx1 : w1.indexes.contains indexName = true := by
          rw [hix]
          exact hidx
        rw [semanticSearchOp_ok_trace w1 hidx1 hqe]
        dsimp only
        refine ⟨⟨_, rfl⟩, ?_⟩
        rw [htr]
        simp [actualTrace, List.append_assoc]

/-- Witness for C5 (amended) on the spec's three-recipe corpus. -/
theorem c5_linear_flow_witness :
    (∃ results, (runScript (okOracles []) specRecipes c4env
        (initialWorld [indexName])).1 = Except.ok results) ∧
    (runScript (okOracles []) specRecipes c4env (initialWorld [indexName])).2.trace =
      (initialWorld [indexName]).trace ++ actualTrace specRecipes := by
  refine c5_linear_flow (okOracles []) c4env specRecipes (initialWorld [indexName])
    rfl rfl ?_ ⟨[1], [], rfl⟩ ?_
  · intro r hr
    exact ⟨[1], [], rfl⟩
  · intro r hr
    rfl

end PineconeExample
